import Mathlib

/-
Verification development for the Blender Automatic Camera Tracking add-on
(src/init file).  The two cores are modelled as executable Lean functions:

  * the Tracking Cycle (operator autotrack.auto_track): per-cycle track
    classification (ANALYZE), overlap suppression (OVERLAP) and the modal
    trigger logic;
  * the Solve-Prune Cycle (operator autotrack.auto_solve): the modal
    SOLVING / PRUNING state machine with rollback and finalization.

Floating point quantities of the source (marker coordinates, weights,
reprojection errors) are modelled over the rationals; frame numbers over
the integers.  The solve engine (bpy.ops.clip.solve_camera) is abstracted
as an oracle mapping the index of the solve invocation to a result record,
matching section 6 of the specification, which treats it as an opaque
collaborator.
-/

namespace AutoTrack

/-- A tracking marker: one observed position of a track on one frame.
Mirrors the fields the source reads: marker.co (normalized image space)
and marker.mute. -/
structure Marker where
  frame : Int
  x : ℚ
  y : ℚ
  mute : Bool
deriving DecidableEq

/-- A 2D track as consumed by the Tracking Cycle: hide and lock flags plus
the marker list (track.markers). -/
structure Track where
  id : Nat
  hide : Bool
  lock : Bool
  markers : List Marker
deriving DecidableEq

/-- Model of track.markers.find_frame(f, exact=True): the marker whose
frame equals f, if any (at most one marker per frame holds in the data). -/
def findFrame (t : Track) (f : Int) : Option Marker :=
  t.markers.find? (fun m => m.frame == f)

/-- Lookup pattern of the source for the current marker: the marker at the
current frame, falling back to the previous frame (lines 93 to 95). -/
def markerCur (t : Track) (cf : Int) : Option Marker :=
  match findFrame t cf with
  | some m => some m
  | none => findFrame t (cf - 1)

/-- Lookup pattern of the source for the age check: the marker at
currentFrame - rate, falling back to currentFrame - rate - 1
(lines 97 to 100). -/
def markerPrev (t : Track) (cf rate : Int) : Option Marker :=
  match findFrame t (cf - rate) with
  | some m => some m
  | none => findFrame t (cf - rate - 1)

/-- Outcome of the per-track classification in the ANALYZE step. -/
inductive TClass where
  | del
  | stop
  | keep
deriving DecidableEq

/-- Per-track classification implicit in the ANALYZE loop body
(lines 89 to 112): hidden or locked tracks are skipped; rule A deletes a
track old enough to judge (markerPrev present) with fewer than mt markers;
rule B stops or deletes a track whose current marker is muted, by marker
count. -/
def classifyTrack (cf rate : Int) (mt : Nat) (t : Track) : TClass :=
  if t.hide = true ∨ t.lock = true then TClass.keep
  else if (markerPrev t cf rate).isSome ∧ t.markers.length < mt then TClass.del
  else
    match markerCur t cf with
    | some m =>
      if m.mute = true then
        if mt < t.markers.length then TClass.stop else TClass.del
      else TClass.keep
    | none => TClass.keep

/-- The ANALYZE loop (lines 85 to 112): walks the track list in iteration
order, dispatching on the per-track classification and accumulating
tracksToDelete and tracksToStop. -/
def analyze (cf rate : Int) (mt : Nat) : List Track → List Track × List Track
  | [] => ([], [])
  | t :: rest =>
    match classifyTrack cf rate mt t with
    | TClass.del => (t :: (analyze cf rate mt rest).1, (analyze cf rate mt rest).2)
    | TClass.stop => ((analyze cf rate mt rest).1, t :: (analyze cf rate mt rest).2)
    | TClass.keep => analyze cf rate mt rest

/-- The delete set of one tracking cycle. -/
def deleteSet (cf rate : Int) (mt : Nat) (ts : List Track) : List Track :=
  (analyze cf rate mt ts).1

/-- The stop set of one tracking cycle. -/
def stopSet (cf rate : Int) (mt : Nat) (ts : List Track) : List Track :=
  (analyze cf rate mt ts).2

/-- Squared scaled distance between two markers: the square of the source
expression (new.co - old.co).length * diaglen from lines 149 and 160,
with diaglen * diaglen = width squared plus height squared. -/
def distSqScaled (a b : Marker) (w h : ℚ) : ℚ :=
  ((a.x - b.x) ^ 2 + (a.y - b.y) ^ 2) * (w ^ 2 + h ^ 2)

/-- The comparison distance < min_distance of line 161.  The source
compares sqrt of the squared distance times sqrt of the squared diagonal
against minDist; for nonnegative minDist this equals comparing the squared
product against minDist squared, which keeps the model executable over the
rationals (see overlapClose_iff_realDist below for the bridge). -/
def overlapClose (minDist w h : ℚ) (a b : Marker) : Bool :=
  decide (distSqScaled a b w h < minDist ^ 2)

/-- The survivor list built at lines 138 to 146: every track not among the
new trackers, not hidden, carrying a marker at the current or previous
frame, in iteration order. -/
def oldTrackers (tracks newTrackers : List Track) (cf : Int) : List Track :=
  tracks.filter (fun t =>
    decide (t ∉ newTrackers ∧ t.hide = false ∧ (markerCur t cf).isSome))

/-- The inner survivor scan of lines 154 to 163 for one candidate marker:
stops at the first survivor within the minimum distance. -/
def overlapScan (cf : Int) (minDist w h : ℚ) (nm : Marker) : List Track → Bool
  | [] => false
  | o :: rest =>
    match markerCur o cf with
    | some om =>
      if overlapClose minDist w h nm om then true
      else overlapScan cf minDist w h nm rest
    | none => overlapScan cf minDist w h nm rest

/-- The overlap removal list of lines 148 to 163: candidates flagged by the
survivor scan, in candidate iteration order; a candidate without a marker
exactly at the current frame is skipped. -/
def overlapRemove (cf : Int) (minDist w h : ℚ) (newTrackers olds : List Track) :
    List Track :=
  newTrackers.filter (fun nt =>
    match findFrame nt cf with
    | some nm => overlapScan cf minDist w h nm olds
    | none => false)

/-- Event delivered to a modal operator. -/
inductive MEvent where
  | esc
  | timer
  | other
deriving DecidableEq

/-- Return value of the tracking modal handler. -/
inductive TOutcome where
  | cancelled
  | finished
  | passThrough
  | runningModal
deriving DecidableEq

/-- Trigger state of the tracking modal: the redetect target frame
(-1 when unset), the current frame, and the scene end frame. -/
structure TrackSt where
  frameRedetect : Int
  currentFrame : Int
  frameEnd : Int
deriving DecidableEq

/-- The modal handler of autotrack.auto_track (lines 200 to 218).  The
Boolean reports whether the per-cycle algorithm (execute) ran on this
event.  On a timer event the end-of-clip check runs first; only then the
sentinel or target-frame test decides whether the cycle runs. -/
def trackModal (s : TrackSt) (ev : MEvent) : TOutcome × Bool :=
  match ev with
  | MEvent.esc => (TOutcome.cancelled, false)
  | MEvent.timer =>
    if s.frameEnd ≤ s.currentFrame then (TOutcome.finished, false)
    else if s.frameRedetect = -1 ∨ s.frameRedetect - 1 ≤ s.currentFrame then
      (TOutcome.passThrough, true)
    else (TOutcome.passThrough, false)
  | MEvent.other => (TOutcome.runningModal, false)

/-- Concrete tracks for the tie-break witness: one muted slipping track
with three markers and one muted slipping track with a single marker,
against minDurationFrames = 2. -/
def c6exampleTracks : List Track :=
  [Track.mk 1 false false
      [Marker.mk 10 0 0 true, Marker.mk 9 0 0 false, Marker.mk 8 0 0 false],
   Track.mk 2 false false [Marker.mk 10 0 0 true]]

/-- Concrete current-frame marker of the overlap witness candidate. -/
def c5candMarker : Marker := Marker.mk 5 1 0 false

/-- Concrete candidate track for the overlap witness. -/
def c5cand : Track := Track.mk 10 false false [c5candMarker]

/-- Concrete survivor track for the overlap witness. -/
def c5survivor : Track := Track.mk 1 false false [Marker.mk 5 0 0 false]

/-- A track as consumed by the Solve-Prune Cycle: solver weight, hide flag,
bundle success flag and per-track reprojection error. -/
structure STrack where
  id : Nat
  weight : ℚ
  hide : Bool
  hasBundle : Bool
  averageError : ℚ
deriving DecidableEq

/-- Result of one solve-engine invocation: reconstruction validity and the
average reprojection error. -/
structure SolveResult where
  valid : Bool
  error : ℚ
deriving DecidableEq

/-- Solve configuration read from the scene: the delete-failed toggle and
the per-iteration worst-track batch size. -/
structure SolveCfg where
  deleteFailed : Bool
  deleteCount : Nat
deriving DecidableEq

/-- Phase of the solve modal state machine. -/
inductive SPhase where
  | solving
  | pruning
deriving DecidableEq

/-- Mutable state of autotrack.auto_solve.  solveCalls counts the
solve-engine invocations so far and doubles as the oracle index for the
next invocation. -/
structure SolveSt where
  iteration : Nat
  maxIterations : Nat
  targetError : ℚ
  bestError : ℚ
  disabledCount : Nat
  candidates : List Nat
  history : List (Nat × ℚ)
  phase : SPhase
  fromPrune : Bool
  tracks : List STrack
  solveCalls : Nat
deriving DecidableEq

/-- Return value of the solve modal handler. -/
inductive SOutcome where
  | cancelled
  | finished
  | passThrough
deriving DecidableEq

/-- Engine side effects a modal step can issue, for observing which engine
operations ran. -/
inductive EAction where
  | solveCamera
  | deleteSelected
deriving DecidableEq

/-- Model of valid_tracks.sort(key=averageError, reverse=True) at
line 335: stable insertion sort into descending error order, ties kept in
iteration order as CPython guarantees. -/
def sortByErrorDesc (l : List STrack) : List STrack :=
  l.insertionSort (fun a b => b.averageError ≤ a.averageError)

/-- Failed-reconstruction candidates of lines 328 to 331: weight-positive
visible tracks without a bundle, in iteration order, gated on the
delete-failed toggle. -/
def failedCandidates (cfg : SolveCfg) (ts : List STrack) : List STrack :=
  if cfg.deleteFailed then
    ts.filter (fun t => decide (0 < t.weight ∧ t.hide = false ∧ t.hasBundle = false))
  else []

/-- Bundled candidate pool of line 334: weight-positive visible tracks
with a bundle, in iteration order. -/
def validTracks (ts : List STrack) : List STrack :=
  ts.filter (fun t => decide (0 < t.weight ∧ t.hide = false ∧ t.hasBundle = true))

/-- The prune candidate list of lines 325 to 340: failed candidates first,
then the worst deleteCount bundled tracks, each appended only when not
already listed. -/
def prunePass (cfg : SolveCfg) (ts : List STrack) : List STrack :=
  ((sortByErrorDesc (validTracks ts)).take cfg.deleteCount).foldl
    (fun acc t => if t ∈ acc then acc else acc ++ [t])
    (failedCandidates cfg ts)

/-- Weight restoration from the pre-prune snapshot (lines 299 to 300). -/
def restoreWeights (hist : List (Nat × ℚ)) (ts : List STrack) : List STrack :=
  ts.map (fun t =>
    match hist.find? (fun p => p.1 == t.id) with
    | some p => { t with weight := p.2 }
    | none => t)

/-- Setting every candidate weight to zero (lines 348 to 349). -/
def zeroWeights (ids : List Nat) (ts : List STrack) : List STrack :=
  ts.map (fun t => if t.id ∈ ids then { t with weight := 0 } else t)

/-- Finalization (finish, lines 377 to 393): when any prune was committed,
every track whose weight is zero is selected and delete-selected runs
once; otherwise the dataset is untouched. -/
def finishTracks (s : SolveSt) : List STrack × List EAction :=
  if 0 < s.disabledCount then
    (s.tracks.filter (fun t => decide (t.weight ≠ 0)), [EAction.deleteSelected])
  else (s.tracks, [])

/-- One modal event of autotrack.auto_solve (lines 264 to 355).  The
oracle maps the index of a solve invocation to the reconstruction it
produces; the returned action list records the engine operations the step
issued.  The revert path restores the snapshot weights and invokes the
solve engine once more (line 301) before finishing. -/
def solveStep (oracle : Nat → SolveResult) (cfg : SolveCfg) (s : SolveSt)
    (ev : MEvent) : SolveSt × SOutcome × List EAction :=
  match ev with
  | MEvent.esc => (s, SOutcome.cancelled, [])
  | MEvent.other => (s, SOutcome.passThrough, [])
  | MEvent.timer =>
    match s.phase with
    | SPhase.solving =>
      let res := oracle s.solveCalls
      let s1 : SolveSt := { s with solveCalls := s.solveCalls + 1 }
      if res.valid = false then (s1, SOutcome.cancelled, [EAction.solveCamera])
      else if s1.iteration = 0 then
        let s2 : SolveSt :=
          { s1 with
            bestError := res.error,
            phase := SPhase.pruning,
            fromPrune := false }
        if s2.bestError ≤ s2.targetError then
          let f := finishTracks s2
          ({ s2 with tracks := f.1 }, SOutcome.finished, EAction.solveCamera :: f.2)
        else (s2, SOutcome.passThrough, [EAction.solveCamera])
      else if s1.fromPrune = true then
        if res.error < s1.bestError then
          let s2 : SolveSt :=
            { s1 with
              bestError := res.error,
              disabledCount := s1.disabledCount + s1.candidates.length,
              phase := SPhase.pruning,
              fromPrune := false }
          if s2.bestError ≤ s2.targetError then
            let f := finishTracks s2
            ({ s2 with tracks := f.1 }, SOutcome.finished, EAction.solveCamera :: f.2)
          else (s2, SOutcome.passThrough, [EAction.solveCamera])
        else
          let s2 : SolveSt :=
            { s1 with
              tracks := restoreWeights s1.history s1.tracks,
              solveCalls := s1.solveCalls + 1 }
          let f := finishTracks s2
          ({ s2 with tracks := f.1 }, SOutcome.finished,
            EAction.solveCamera :: EAction.solveCamera :: f.2)
      else
        let s2 : SolveSt := { s1 with fromPrune := false }
        if s2.bestError ≤ s2.targetError then
          let f := finishTracks s2
          ({ s2 with tracks := f.1 }, SOutcome.finished, EAction.solveCamera :: f.2)
        else (s2, SOutcome.passThrough, [EAction.solveCamera])
    | SPhase.pruning =>
      let s1 : SolveSt := { s with iteration := s.iteration + 1 }
      if s1.maxIterations < s1.iteration then
        let f := finishTracks s1
        ({ s1 with tracks := f.1 }, SOutcome.finished, f.2)
      else
        let cands := prunePass cfg s1.tracks
        if cands.isEmpty = true then
          let f := finishTracks s1
          ({ s1 with tracks := f.1 }, SOutcome.finished, f.2)
        else
          ({ s1 with
             candidates := cands.map STrack.id,
             history := cands.map (fun t => (t.id, t.weight)),
             tracks := zeroWeights (cands.map STrack.id) s1.tracks,
             phase := SPhase.solving,
             fromPrune := true },
           SOutcome.passThrough, [])

/-- Fresh controller state as set up by invoke (lines 357 to 375), with
the class constants maxIterations and targetError (20 and 0.3 in the
source) taken as parameters; the best error starts at the class default
9999.9. -/
def initSolveSt (maxIter : Nat) (targetErr : ℚ) (ts : List STrack) : SolveSt :=
  { iteration := 0, maxIterations := maxIter, targetError := targetErr,
    bestError := mkRat 99999 10, disabledCount := 0, candidates := [],
    history := [], phase := SPhase.solving, fromPrune := false,
    tracks := ts, solveCalls := 0 }

/-- Driving the solve modal with successive timer events until a terminal
return or the fuel runs out. -/
def solveRun (oracle : Nat → SolveResult) (cfg : SolveCfg) :
    Nat → SolveSt → SolveSt × Option SOutcome
  | 0, s => (s, none)
  | n + 1, s =>
    match solveStep oracle cfg s MEvent.timer with
    | (s1, SOutcome.passThrough, _) => solveRun oracle cfg n s1
    | (s1, SOutcome.cancelled, _) => (s1, some SOutcome.cancelled)
    | (s1, SOutcome.finished, _) => (s1, some SOutcome.finished)

/-- Reachable-state invariant of the solve machine, tying the number of
solve invocations to the iteration counter in each phase. -/
def SolveInv (s : SolveSt) : Prop :=
  (s.phase = SPhase.solving ∧ s.fromPrune = false ∧ s.iteration = 0 ∧
    s.solveCalls = 0) ∨
  (s.phase = SPhase.pruning ∧ s.solveCalls = s.iteration + 1 ∧
    s.iteration ≤ s.maxIterations) ∨
  (s.phase = SPhase.solving ∧ s.fromPrune = true ∧
    s.solveCalls = s.iteration ∧ 1 ≤ s.iteration ∧ s.iteration ≤ s.maxIterations)

/-- Concrete solve oracle for the C1 counterexample: the first solve
returns error 10, the prune evaluation returns the worse error 20, and the
restorative solve of the revert path returns 10 again. -/
def c1oracle : Nat → SolveResult := fun n =>
  if n = 0 then SolveResult.mk true 10
  else if n = 1 then SolveResult.mk true 20
  else SolveResult.mk true 10

/-- Single bundled weight-one track for the C1 counterexample. -/
def c1tracks : List STrack := [STrack.mk 0 1 false true 1]

/-- Solve configuration for the C1 counterexample: no failed-track
deletion, worst batch of one. -/
def c1cfg : SolveCfg := SolveCfg.mk false 1

/-- Mid-run solve state evaluating a prune, for the C1 witness. -/
def c1midState : SolveSt :=
  { iteration := 1, maxIterations := 1, targetError := 1, bestError := 10,
    disabledCount := 0, candidates := [0], history := [(0, 1)],
    phase := SPhase.solving, fromPrune := true,
    tracks := [STrack.mk 0 0 false true 1], solveCalls := 1 }

/-- Constant solve oracle returning a valid reconstruction at error 1. -/
def c3oracle : Nat → SolveResult := fun _ => SolveResult.mk true 1

/-- Constant solve oracle returning a valid reconstruction at error 5. -/
def c3oracleHigh : Nat → SolveResult := fun _ => SolveResult.mk true 5

/-- Configuration of the concrete C7 scenario: delete failed bundles and a
worst batch of two. -/
def c7cfg : SolveCfg := SolveCfg.mk true 2

/-- Tracks of the concrete C7 scenario: two failed tracks (ids 1 and 2)
and five bundled tracks with errors 0.9, 0.7, 0.5, 0.3, 0.2 (ids 3 to 7),
listed in scrambled order so the sort matters. -/
def c7tracks : List STrack :=
  [STrack.mk 1 1 false false 0,
   STrack.mk 2 1 false false 0,
   STrack.mk 5 1 false true (mkRat 1 2),
   STrack.mk 3 1 false true (mkRat 9 10),
   STrack.mk 7 1 false true (mkRat 1 5),
   STrack.mk 4 1 false true (mkRat 7 10),
   STrack.mk 6 1 false true (mkRat 3 10)]

theorem mem_deleteSet (cf rate : Int) (mt : Nat) (ts : List Track) (t : Track) :
    t ∈ deleteSet cf rate mt ts ↔
      t ∈ ts ∧ classifyTrack cf rate mt t = TClass.del := by
  induction ts with
  | nil => simp [deleteSet, analyze]
  | cons u rest ih =>
    simp only [deleteSet, analyze] at ih ⊢
    cases hc : classifyTrack cf rate mt u with
    | del =>
      simp only [List.mem_cons, ih]
      constructor
      · rintro (rfl | ⟨hm, hcl⟩)
        · exact ⟨Or.inl rfl, hc⟩
        · exact ⟨Or.inr hm, hcl⟩
      · rintro ⟨rfl | hm, hcl⟩
        · exact Or.inl rfl
        · exact Or.inr ⟨hm, hcl⟩
    | stop =>
      simp only [List.mem_cons, ih]
      constructor
      · rintro ⟨hm, hcl⟩
        exact ⟨Or.inr hm, hcl⟩
      · rintro ⟨rfl | hm, hcl⟩
        · rw [hc] at hcl; exact absurd hcl (by simp)
        · exact ⟨hm, hcl⟩
    | keep =>
      simp only [List.mem_cons, ih]
      constructor
      · rintro ⟨hm, hcl⟩
        exact ⟨Or.inr hm, hcl⟩
      · rintro ⟨rfl | hm, hcl⟩
        · rw [hc] at hcl; exact absurd hcl (by simp)
        · exact ⟨hm, hcl⟩

theorem mem_stopSet (cf rate : Int) (mt : Nat) (ts : List Track) (t : Track) :
    t ∈ stopSet cf rate mt ts ↔
      t ∈ ts ∧ classifyTrack cf rate mt t = TClass.stop := by
  induction ts with
  | nil => simp [stopSet, analyze]
  | cons u rest ih =>
    simp only [stopSet, analyze] at ih ⊢
    cases hc : classifyTrack cf rate mt u with
    | stop =>
      simp only [List.mem_cons, ih]
      constructor
      · rintro (rfl | ⟨hm, hcl⟩)
        · exact ⟨Or.inl rfl, hc⟩
        · exact ⟨Or.inr hm, hcl⟩
      · rintro ⟨rfl | hm, hcl⟩
        · exact Or.inl rfl
        · exact Or.inr ⟨hm, hcl⟩
    | del =>
      simp only [List.mem_cons, ih]
      constructor
      · rintro ⟨hm, hcl⟩
        exact ⟨Or.inr hm, hcl⟩
      · rintro ⟨rfl | hm, hcl⟩
        · rw [hc] at hcl; exact absurd hcl (by simp)
        · exact ⟨hm, hcl⟩
    | keep =>
      simp only [List.mem_cons, ih]
      constructor
      · rintro ⟨hm, hcl⟩
        exact ⟨Or.inr hm, hcl⟩
      · rintro ⟨rfl | hm, hcl⟩
        · rw [hc] at hcl; exact absurd hcl (by simp)
        · exact ⟨hm, hcl⟩

theorem markerPrev_isSome_of_exact (t : Track) (cf rate : Int)
    (h : (findFrame t (cf - rate)).isSome) : (markerPrev t cf rate).isSome := by
  unfold markerPrev
  cases hf : findFrame t (cf - rate) with
  | some m => simp
  | none => rw [hf] at h; simp at h

theorem markerPrev_isSome_of_fallback (t : Track) (cf rate : Int)
    (h0 : findFrame t (cf - rate) = none)
    (h1 : (findFrame t (cf - rate - 1)).isSome) : (markerPrev t cf rate).isSome := by
  unfold markerPrev
  rw [h0]
  exact h1

theorem overlapClose_iff_realDist (minDist w h : ℚ) (hm : 0 < minDist)
    (a b : Marker) :
    overlapClose minDist w h a b = true ↔
      Real.sqrt (((a.x : ℝ) - (b.x : ℝ)) ^ 2 + ((a.y : ℝ) - (b.y : ℝ)) ^ 2) *
        Real.sqrt ((w : ℝ) ^ 2 + (h : ℝ) ^ 2) < (minDist : ℝ) := by
  have hc : (0 : ℝ) < (minDist : ℝ) := by exact_mod_cast hm
  have hA : (0 : ℝ) ≤ ((a.x : ℝ) - (b.x : ℝ)) ^ 2 + ((a.y : ℝ) - (b.y : ℝ)) ^ 2 := by
    positivity
  rw [overlapClose, decide_eq_true_eq, ← Real.sqrt_mul hA, Real.sqrt_lt' hc]
  rw [show (((a.x : ℝ) - (b.x : ℝ)) ^ 2 + ((a.y : ℝ) - (b.y : ℝ)) ^ 2) *
        ((w : ℝ) ^ 2 + (h : ℝ) ^ 2) = ((distSqScaled a b w h : ℚ) : ℝ) by
    push_cast [distSqScaled]; ring]
  rw [show ((minDist : ℝ)) ^ 2 = (((minDist ^ 2 : ℚ)) : ℝ) by push_cast; ring]
  exact Iff.symm Rat.cast_lt

theorem overlapScan_eq_true_iff (cf : Int) (minDist w h : ℚ) (nm : Marker)
    (olds : List Track) :
    overlapScan cf minDist w h nm olds = true ↔
      ∃ o ∈ olds, ∃ om, markerCur o cf = some om ∧
        overlapClose minDist w h nm om = true := by
  induction olds with
  | nil => simp [overlapScan]
  | cons o rest ih =>
    cases hc : markerCur o cf with
    | some om =>
      cases hcl : overlapClose minDist w h nm om with
      | true =>
        have hscan : overlapScan cf minDist w h nm (o :: rest) = true := by
          simp [overlapScan, hc, hcl]
        rw [hscan]
        simp only [List.mem_cons, true_iff]
        exact ⟨o, Or.inl rfl, om, hc, hcl⟩
      | false =>
        have hscan : overlapScan cf minDist w h nm (o :: rest)
            = overlapScan cf minDist w h nm rest := by
          simp [overlapScan, hc, hcl]
        rw [hscan, ih]
        constructor
        · rintro ⟨u, hu, um, hum, hucl⟩
          exact ⟨u, List.mem_cons_of_mem o hu, um, hum, hucl⟩
        · rintro ⟨u, hu, um, hum, hucl⟩
          rcases List.mem_cons.mp hu with rfl | hu2
          · rw [hc] at hum
            cases hum
            rw [hucl] at hcl
            exact Bool.noConfusion hcl
          · exact ⟨u, hu2, um, hum, hucl⟩
    | none =>
      have hscan : overlapScan cf minDist w h nm (o :: rest)
          = overlapScan cf minDist w h nm rest := by
        simp [overlapScan, hc]
      rw [hscan, ih]
      constructor
      · rintro ⟨u, hu, um, hum, hucl⟩
        exact ⟨u, List.mem_cons_of_mem o hu, um, hum, hucl⟩
      · rintro ⟨u, hu, um, hum, hucl⟩
        rcases List.mem_cons.mp hu with rfl | hu2
        · rw [hc] at hum
          cases hum
        · exact ⟨u, hu2, um, hum, hucl⟩

/-- C4: every non-hidden, non-locked track that has a marker exactly at
currentFrame - rateFrames and strictly fewer than minDurationFrames markers
is put in the delete set of that tracking cycle, for every configuration. -/
theorem c4_garbage_rule (cf rate : Int) (mt : Nat) (ts : List Track) (t : Track)
    (hmem : t ∈ ts) (hh : t.hide = false) (hl : t.lock = false)
    (hpm : (findFrame t (cf - rate)).isSome) (hlen : t.markers.length < mt) :
    t ∈ deleteSet cf rate mt ts := by
  rw [mem_deleteSet]
  refine ⟨hmem, ?_⟩
  have hnothl : ¬(t.hide = true ∨ t.lock = true) := by simp [hh, hl]
  have hprev := markerPrev_isSome_of_exact t cf rate hpm
  unfold classifyTrack
  rw [if_neg hnothl, if_pos (And.intro hprev hlen)]

theorem c4_garbage_rule_witness :
    Track.mk 1 false false [Marker.mk 70 0 0 false] ∈
      deleteSet 100 30 15 [Track.mk 1 false false [Marker.mk 70 0 0 false]] :=
  c4_garbage_rule 100 30 15 _ _ (by decide) rfl rfl (by decide) (by decide)

/-- C8: a non-hidden, non-locked track with no marker at
currentFrame - rateFrames but a marker at currentFrame - rateFrames - 1,
and fewer than minDurationFrames markers, is also classified garbage: the
age check accepts the one-frame-earlier fallback marker. -/
theorem c8_garbage_fallback (cf rate : Int) (mt : Nat) (ts : List Track) (t : Track)
    (hmem : t ∈ ts) (hh : t.hide = false) (hl : t.lock = false)
    (h0 : findFrame t (cf - rate) = none)
    (h1 : (findFrame t (cf - rate - 1)).isSome)
    (hlen : t.markers.length < mt) :
    t ∈ deleteSet cf rate mt ts := by
  rw [mem_deleteSet]
  refine ⟨hmem, ?_⟩
  have hnothl : ¬(t.hide = true ∨ t.lock = true) := by simp [hh, hl]
  have hprev := markerPrev_isSome_of_fallback t cf rate h0 h1
  unfold classifyTrack
  rw [if_neg hnothl, if_pos (And.intro hprev hlen)]

theorem c8_garbage_fallback_witness :
    Track.mk 1 false false [Marker.mk 69 0 0 false] ∈
      deleteSet 100 30 15 [Track.mk 1 false false [Marker.mk 69 0 0 false]] :=
  c8_garbage_fallback 100 30 15 _ _ (by decide) rfl rfl (by decide) (by decide)
    (by decide)

/-- C6: a non-hidden, non-locked track whose current marker (current frame,
else previous frame) is muted goes to the stop set and never the delete set
when its marker count exceeds minDurationFrames, and to the delete set and
never the stop set when its marker count is at most minDurationFrames. -/
theorem c6_stop_delete_tiebreak (cf rate : Int) (mt : Nat) (ts : List Track)
    (t : Track) (m : Marker)
    (hmem : t ∈ ts) (hh : t.hide = false) (hl : t.lock = false)
    (hcur : markerCur t cf = some m) (hmute : m.mute = true) :
    (mt < t.markers.length →
      t ∈ stopSet cf rate mt ts ∧ t ∉ deleteSet cf rate mt ts) ∧
    (t.markers.length ≤ mt →
      t ∈ deleteSet cf rate mt ts ∧ t ∉ stopSet cf rate mt ts) := by
  have hnothl : ¬(t.hide = true ∨ t.lock = true) := by simp [hh, hl]
  constructor
  · intro hlt
    have hna : ¬((markerPrev t cf rate).isSome ∧ t.markers.length < mt) := by
      rintro ⟨hp, hlen⟩
      omega
    have hcl : classifyTrack cf rate mt t = TClass.stop := by
      unfold classifyTrack
      rw [if_neg hnothl, if_neg hna, hcur]
      simp [hmute, hlt]
    refine ⟨(mem_stopSet cf rate mt ts t).mpr ⟨hmem, hcl⟩, ?_⟩
    intro hd
    have h2 := ((mem_deleteSet cf rate mt ts t).mp hd).2
    rw [hcl] at h2
    exact TClass.noConfusion h2
  · intro hle
    have hnl : ¬(mt < t.markers.length) := by omega
    have hcl : classifyTrack cf rate mt t = TClass.del := by
      by_cases hp : (markerPrev t cf rate).isSome ∧ t.markers.length < mt
      · unfold classifyTrack
        rw [if_neg hnothl, if_pos hp]
      · unfold classifyTrack
        rw [if_neg hnothl, if_neg hp, hcur]
        simp [hmute, hnl]
    refine ⟨(mem_deleteSet cf rate mt ts t).mpr ⟨hmem, hcl⟩, ?_⟩
    intro hs
    have h2 := ((mem_stopSet cf rate mt ts t).mp hs).2
    rw [hcl] at h2
    exact TClass.noConfusion h2

theorem c6_stop_delete_tiebreak_witness :
    (Track.mk 1 false false
        [Marker.mk 10 0 0 true, Marker.mk 9 0 0 false, Marker.mk 8 0 0 false] ∈
      stopSet 10 30 2 c6exampleTracks ∧
     Track.mk 1 false false
        [Marker.mk 10 0 0 true, Marker.mk 9 0 0 false, Marker.mk 8 0 0 false] ∉
      deleteSet 10 30 2 c6exampleTracks) ∧
    (Track.mk 2 false false [Marker.mk 10 0 0 true] ∈
      deleteSet 10 30 2 c6exampleTracks ∧
     Track.mk 2 false false [Marker.mk 10 0 0 true] ∉
      stopSet 10 30 2 c6exampleTracks) :=
  ⟨(c6_stop_delete_tiebreak 10 30 2 c6exampleTracks _ (Marker.mk 10 0 0 true)
      (by decide) rfl rfl (by decide) rfl).1 (by decide),
   (c6_stop_delete_tiebreak 10 30 2 c6exampleTracks _ (Marker.mk 10 0 0 true)
      (by decide) rfl rfl (by decide) rfl).2 (by decide)⟩

/-- C9: a newly detected candidate with no marker exactly at the current
frame is never flagged for overlap removal, however close the survivors. -/
theorem c9_no_current_marker_no_removal (cf : Int) (minDist w h : ℚ)
    (newTrackers olds : List Track) (cand : Track)
    (hcm : cand ∈ newTrackers) (hnm : findFrame cand cf = none) :
    cand ∉ overlapRemove cf minDist w h newTrackers olds := by
  intro hmem
  unfold overlapRemove at hmem
  rw [List.mem_filter] at hmem
  have h2 := hmem.2
  simp only [hnm] at h2
  exact Bool.noConfusion h2

theorem c9_no_current_marker_no_removal_witness :
    Track.mk 10 false false [Marker.mk 4 0 0 false] ∉
      overlapRemove 5 60 1920 1080 [Track.mk 10 false false [Marker.mk 4 0 0 false]]
        [Track.mk 1 false false [Marker.mk 5 0 0 false]] :=
  c9_no_current_marker_no_removal 5 60 1920 1080 _ _ _ (by decide) (by decide)

/-- C5: over the survivor list the source builds, a candidate with a marker
at the current frame is flagged for removal exactly when some survivor lies
at scaled pixel distance (Euclidean marker distance times the clip
diagonal) strictly below the minimum distance; a candidate at distance at
least the minimum from every survivor is kept. -/
theorem c5_overlap_suppression (tracks newTrackers : List Track) (cf : Int)
    (minDist w h : ℚ) (cand : Track) (nm : Marker)
    (hmd : 0 < minDist) (hc : cand ∈ newTrackers)
    (hnm : findFrame cand cf = some nm) :
    cand ∈ overlapRemove cf minDist w h newTrackers
        (oldTrackers tracks newTrackers cf) ↔
      ∃ o ∈ oldTrackers tracks newTrackers cf, ∃ om,
        markerCur o cf = some om ∧
        Real.sqrt (((nm.x : ℝ) - (om.x : ℝ)) ^ 2 + ((nm.y : ℝ) - (om.y : ℝ)) ^ 2) *
          Real.sqrt ((w : ℝ) ^ 2 + (h : ℝ) ^ 2) < (minDist : ℝ) := by
  unfold overlapRemove
  rw [List.mem_filter]
  simp only [hnm]
  rw [and_iff_right hc, overlapScan_eq_true_iff]
  constructor
  · rintro ⟨o, ho, om, hom, hclose⟩
    exact ⟨o, ho, om, hom,
      (overlapClose_iff_realDist minDist w h hmd nm om).mp hclose⟩
  · rintro ⟨o, ho, om, hom, hdist⟩
    exact ⟨o, ho, om, hom,
      (overlapClose_iff_realDist minDist w h hmd nm om).mpr hdist⟩

theorem c5_overlap_suppression_witness :
    c5cand ∈ overlapRemove 5 60 1920 1080 [c5cand]
        (oldTrackers [c5survivor, c5cand] [c5cand] 5) ↔
      ∃ o ∈ oldTrackers [c5survivor, c5cand] [c5cand] 5, ∃ om,
        markerCur o 5 = some om ∧
        Real.sqrt (((c5candMarker.x : ℝ) - (om.x : ℝ)) ^ 2 +
            ((c5candMarker.y : ℝ) - (om.y : ℝ)) ^ 2) *
          Real.sqrt (((1920 : ℚ) : ℝ) ^ 2 + ((1080 : ℚ) : ℝ) ^ 2) < ((60 : ℚ) : ℝ) :=
  c5_overlap_suppression [c5survivor, c5cand] [c5cand] 5 60 1920 1080 c5cand
    c5candMarker (by decide) (by decide) (by decide)

/-- C2 counterexample: with the sentinel unset (frameRedetect = -1) but the
current frame at the end frame, the timer trigger finishes the operator and
the per-cycle algorithm does not run. -/
theorem c2_counterexample :
    (TrackSt.mk (-1) 100 100).frameRedetect = -1 ∧
    trackModal (TrackSt.mk (-1) 100 100) MEvent.timer = (TOutcome.finished, false) := by
  decide

/-- C2 amended: with the sentinel unset, the per-cycle algorithm runs on the
very next timer trigger whenever the current frame is still strictly before
the end frame; the end-of-clip check of line 207 runs first and wins
otherwise. -/
theorem c2_sentinel_trigger (s : TrackSt) (hs : s.frameRedetect = -1)
    (hf : s.currentFrame < s.frameEnd) :
    trackModal s MEvent.timer = (TOutcome.passThrough, true) := by
  unfold trackModal
  rw [if_neg (by omega), if_pos (Or.inl hs)]

theorem c2_sentinel_trigger_witness :
    trackModal (TrackSt.mk (-1) 5 100) MEvent.timer = (TOutcome.passThrough, true) :=
  c2_sentinel_trigger (TrackSt.mk (-1) 5 100) rfl (by decide)

theorem SolveInv.calls_le {s : SolveSt} (h : SolveInv s) :
    s.solveCalls ≤ s.maxIterations + 1 := by
  rcases h with ⟨_, _, _, hsc⟩ | ⟨_, hsc, hle⟩ | ⟨_, _, hsc, h1, hle⟩ <;> omega

theorem solveStep_timer_inv (oracle : Nat → SolveResult) (cfg : SolveCfg)
    (s : SolveSt) (h : SolveInv s) :
    ((solveStep oracle cfg s MEvent.timer).2.1 = SOutcome.passThrough ∧
      SolveInv (solveStep oracle cfg s MEvent.timer).1 ∧
      (solveStep oracle cfg s MEvent.timer).1.maxIterations = s.maxIterations) ∨
    ((solveStep oracle cfg s MEvent.timer).2.1 ≠ SOutcome.passThrough ∧
      (solveStep oracle cfg s MEvent.timer).1.solveCalls ≤ s.maxIterations + 2 ∧
      (solveStep oracle cfg s MEvent.timer).1.maxIterations = s.maxIterations) := by
  rcases h with ⟨hph, hfp, hit, hsc⟩ | ⟨hph, hsc, hle⟩ | ⟨hph, hfp, hsc, h1, hle⟩
  · simp only [solveStep, hph, hit, hfp]
    split_ifs with hv htgt
    · right
      refine ⟨by simp, ?_, by simp⟩
      simp only []
      omega
    · right
      refine ⟨by simp, ?_, by simp⟩
      simp only []
      omega
    · left
      refine ⟨by simp, ?_, by simp⟩
      unfold SolveInv
      right; left
      refine ⟨by simp, ?_, by simp⟩
      simp only []
      omega
  · simp only [solveStep, hph]
    split_ifs with hmax hemp
    · right
      refine ⟨by simp, ?_, by simp⟩
      simp only []
      omega
    · right
      refine ⟨by simp, ?_, by simp⟩
      simp only []
      omega
    · left
      refine ⟨by simp, ?_, by simp⟩
      unfold SolveInv
      right; right
      refine ⟨by simp, by simp, ?_, ?_, ?_⟩ <;> (simp only []; omega)
  · simp only [solveStep, hph, hfp]
    split_ifs with hv hit0 htgt0 hcommit htgt1
    · right
      refine ⟨by simp, ?_, by simp⟩
      simp only []
      omega
    · exact absurd hit0 (by omega)
    · exact absurd hit0 (by omega)
    · right
      refine ⟨by simp, ?_, by simp⟩
      simp only []
      omega
    · left
      refine ⟨by simp, ?_, by simp⟩
      unfold SolveInv
      right; left
      refine ⟨by simp, ?_, ?_⟩ <;> (simp only []; omega)
    · right
      refine ⟨by simp, ?_, by simp⟩
      simp only []
      omega

theorem solveRun_calls_le (oracle : Nat → SolveResult) (cfg : SolveCfg) :
    ∀ (n : Nat) (s : SolveSt), SolveInv s →
      (solveRun oracle cfg n s).1.solveCalls ≤ s.maxIterations + 2 := by
  intro n
  induction n with
  | zero =>
    intro s h
    simpa [solveRun] using Nat.le_succ_of_le h.calls_le
  | succ n ih =>
    intro s h
    rcases solveStep_timer_inv oracle cfg s h with ⟨ho, hinv, hmax⟩ | ⟨ho, hcalls, hmax⟩
    · rcases hstep : solveStep oracle cfg s MEvent.timer with ⟨s1, out, acts⟩
      rw [hstep] at ho hinv hmax
      simp only at ho hinv hmax
      subst ho
      simp only [solveRun, hstep]
      rw [← hmax]
      exact ih s1 hinv
    · rcases hstep : solveStep oracle cfg s MEvent.timer with ⟨s1, out, acts⟩
      rw [hstep] at ho hcalls hmax
      simp only at ho hcalls hmax
      cases out with
      | passThrough => exact absurd rfl ho
      | cancelled => simpa [solveRun, hstep] using hcalls
      | finished => simpa [solveRun, hstep] using hcalls

/-- C1 amended: across every iteration that evaluates a prune (a solve
step entered from Pruning) the best-known error is non-increasing, and a
full run from a fresh state performs at most maxIterations + 2 solve
invocations: maxIterations + 1 solve-evaluate steps plus the one extra
restorative solve the revert path issues.  The claimed bound of
maxIterations + 1 engine invocations is refuted by c1_counterexample. -/
theorem c1_solve_monotonic_bounded (oracle : Nat → SolveResult) (cfg : SolveCfg) :
    (∀ s : SolveSt, s.phase = SPhase.solving → s.fromPrune = true →
      s.iteration ≠ 0 →
      (solveStep oracle cfg s MEvent.timer).1.bestError ≤ s.bestError) ∧
    (∀ (maxIter : Nat) (targetErr : ℚ) (ts : List STrack) (n : Nat),
      (solveRun oracle cfg n (initSolveSt maxIter targetErr ts)).1.solveCalls ≤
        maxIter + 2) := by
  constructor
  · intro s hph hfp hit
    simp only [solveStep, hph]
    split_ifs <;>
      first
        | exact absurd (by assumption) hit
        | exact absurd hfp (by assumption)
        | exact le_of_lt (by assumption)
        | exact le_refl _
  · intro maxIter targetErr ts n
    have hinv : SolveInv (initSolveSt maxIter targetErr ts) := by
      left
      exact ⟨rfl, rfl, rfl, rfl⟩
    exact solveRun_calls_le oracle cfg n (initSolveSt maxIter targetErr ts) hinv

/-- C1 counterexample: with maxIterations = 1 the run terminates normally
after three solve-engine invocations, exceeding the claimed bound of
maxIterations + 1 = 2; the third invocation is the restorative solve of
the revert path. -/
theorem c1_counterexample :
    (solveRun c1oracle c1cfg 5 (initSolveSt 1 1 c1tracks)).2 =
      some SOutcome.finished ∧
    (solveRun c1oracle c1cfg 5 (initSolveSt 1 1 c1tracks)).1.solveCalls = 3 ∧
    ¬(3 ≤ 1 + 1) := by
  refine ⟨by decide, by decide, by omega⟩

theorem c1_solve_monotonic_bounded_witness :
    (solveStep c1oracle c1cfg c1midState MEvent.timer).1.bestError ≤
      c1midState.bestError ∧
    (solveRun c1oracle c1cfg 5 (initSolveSt 1 1 c1tracks)).1.solveCalls ≤ 1 + 2 :=
  ⟨(c1_solve_monotonic_bounded c1oracle c1cfg).1 c1midState rfl rfl (by decide),
   (c1_solve_monotonic_bounded c1oracle c1cfg).2 1 1 c1tracks 5⟩

/-- C3 amended: after a valid first solve the controller sets the best
error to the error of that solve and proceeds to Pruning unless that error is
already at or below targetError, in which case it finishes immediately:
the target check of line 307 is not guarded on a commit.  The claimed
unconditional transition to Pruning is refuted by c3_counterexample. -/
theorem c3_first_solve_sets_best (oracle : Nat → SolveResult) (cfg : SolveCfg)
    (s : SolveSt) (hph : s.phase = SPhase.solving) (hit : s.iteration = 0)
    (hv : (oracle s.solveCalls).valid = true) :
    (solveStep oracle cfg s MEvent.timer).1.bestError =
      (oracle s.solveCalls).error ∧
    ((oracle s.solveCalls).error ≤ s.targetError →
      (solveStep oracle cfg s MEvent.timer).2.1 = SOutcome.finished) ∧
    (¬(oracle s.solveCalls).error ≤ s.targetError →
      (solveStep oracle cfg s MEvent.timer).2.1 = SOutcome.passThrough ∧
      (solveStep oracle cfg s MEvent.timer).1.phase = SPhase.pruning) := by
  have hnv : ¬((oracle s.solveCalls).valid = false) := by simp [hv]
  simp only [solveStep, hph, hit]
  split_ifs with h1
  · exact ⟨rfl, fun _ => rfl, fun hq => absurd h1 hq⟩
  · exact ⟨rfl, fun hq => absurd hq h1, fun _ => ⟨rfl, rfl⟩⟩

/-- C3 counterexample: with the first solve error (1) already at the
target (1), the run returns finished right after the single first solve:
the Pruning step never executes (the iteration counter stays 0), so the
next state after the first solve is not always Pruning. -/
theorem c3_counterexample :
    (solveRun c3oracle (SolveCfg.mk true 1) 5 (initSolveSt 20 1 [])).2 =
      some SOutcome.finished ∧
    (solveRun c3oracle (SolveCfg.mk true 1) 5 (initSolveSt 20 1 [])).1.iteration
      = 0 ∧
    (solveRun c3oracle (SolveCfg.mk true 1) 5 (initSolveSt 20 1 [])).1.solveCalls
      = 1 := by
  refine ⟨by decide, by decide, by decide⟩

theorem c3_first_solve_sets_best_witness :
    (solveStep c3oracleHigh (SolveCfg.mk true 1) (initSolveSt 20 1 [])
        MEvent.timer).1.bestError = 5 ∧
    (solveStep c3oracleHigh (SolveCfg.mk true 1) (initSolveSt 20 1 [])
        MEvent.timer).2.1 = SOutcome.passThrough ∧
    (solveStep c3oracleHigh (SolveCfg.mk true 1) (initSolveSt 20 1 [])
        MEvent.timer).1.phase = SPhase.pruning :=
  ⟨(c3_first_solve_sets_best c3oracleHigh (SolveCfg.mk true 1)
      (initSolveSt 20 1 []) rfl rfl rfl).1,
   ((c3_first_solve_sets_best c3oracleHigh (SolveCfg.mk true 1)
      (initSolveSt 20 1 []) rfl rfl rfl).2.2 (by decide)).1,
   ((c3_first_solve_sets_best c3oracleHigh (SolveCfg.mk true 1)
      (initSolveSt 20 1 []) rfl rfl rfl).2.2 (by decide)).2⟩

theorem mem_dedupAppend {α : Type} [DecidableEq α] :
    ∀ (l init : List α) (x : α),
      x ∈ l.foldl (fun acc t => if t ∈ acc then acc else acc ++ [t]) init ↔
        x ∈ init ∨ x ∈ l := by
  intro l
  induction l with
  | nil =>
    intro init x
    simp
  | cons t rest ih =>
    intro init x
    simp only [List.foldl_cons]
    by_cases ht : t ∈ init
    · rw [if_pos ht, ih]
      constructor
      · rintro (hx | hx)
        · exact Or.inl hx
        · exact Or.inr (List.mem_cons_of_mem t hx)
      · rintro (hx | hx)
        · exact Or.inl hx
        · rcases List.mem_cons.mp hx with rfl | hx2
          · exact Or.inl ht
          · exact Or.inr hx2
    · rw [if_neg ht, ih]
      simp only [List.mem_append, List.mem_singleton, List.mem_cons]
      tauto

theorem nodup_dedupAppend {α : Type} [DecidableEq α] :
    ∀ (l init : List α), init.Nodup →
      (l.foldl (fun acc t => if t ∈ acc then acc else acc ++ [t]) init).Nodup := by
  intro l
  induction l with
  | nil =>
    intro init h
    simpa using h
  | cons t rest ih =>
    intro init h
    simp only [List.foldl_cons]
    by_cases ht : t ∈ init
    · rw [if_pos ht]
      exact ih init h
    · rw [if_neg ht]
      refine ih _ ?_
      rw [List.nodup_append]
      exact ⟨h, List.nodup_singleton t, by simpa using ht⟩

theorem failedCandidates_nodup (cfg : SolveCfg) (ts : List STrack)
    (h : ts.Nodup) : (failedCandidates cfg ts).Nodup := by
  unfold failedCandidates
  split_ifs
  · exact h.filter _
  · exact List.nodup_nil

/-- C7: the prune candidate list is the deduplicated union of the failed
set and the worst-deleteCount prefix of the bundled tracks in stable
descending error order, each track listed once; the sorted pool is a
permutation of the bundled pool in descending error order; and on the
concrete scenario (deleteCount 2, deleteFailed true, two failed tracks,
five bundled tracks with errors 0.9, 0.7, 0.5, 0.3, 0.2) exactly the four
expected tracks are pruned. -/
theorem c7_prune_candidates (cfg : SolveCfg) (ts : List STrack) :
    (∀ t : STrack, t ∈ prunePass cfg ts ↔
        t ∈ failedCandidates cfg ts ∨
        t ∈ (sortByErrorDesc (validTracks ts)).take cfg.deleteCount) ∧
    (ts.Nodup → (prunePass cfg ts).Nodup) ∧
    (sortByErrorDesc (validTracks ts)).Sorted
      (fun a b => b.averageError ≤ a.averageError) ∧
    List.Perm (sortByErrorDesc (validTracks ts)) (validTracks ts) ∧
    ((prunePass c7cfg c7tracks).map STrack.id = [1, 2, 3, 4] ∧
      (prunePass c7cfg c7tracks).length = 4) := by
  haveI htot : IsTotal STrack (fun a b => b.averageError ≤ a.averageError) :=
    ⟨fun a b => le_total b.averageError a.averageError⟩
  haveI htr : IsTrans STrack (fun a b => b.averageError ≤ a.averageError) :=
    ⟨fun a b c hab hbc => le_trans hbc hab⟩
  refine ⟨?_, ?_, ?_, ?_, by decide, by decide⟩
  · intro t
    exact mem_dedupAppend _ _ t
  · intro h
    exact nodup_dedupAppend _ _ (failedCandidates_nodup cfg ts h)
  · exact List.sorted_insertionSort _ _
  · exact List.perm_insertionSort _ _

theorem c7_prune_candidates_witness :
    ((prunePass c7cfg c7tracks).map STrack.id = [1, 2, 3, 4] ∧
      (prunePass c7cfg c7tracks).length = 4) ∧
    (prunePass c7cfg c7tracks).Nodup :=
  ⟨(c7_prune_candidates c7cfg c7tracks).2.2.2.2,
   (c7_prune_candidates c7cfg c7tracks).2.1 (by decide)⟩

/-- C10: an ESC event cancels the solve modal without invoking the
finalization deletion: no delete-selected engine call is issued and the
track dataset is returned exactly as it stood, so tracks zeroed by
committed or in-flight prunes stay in the dataset at weight zero. -/
theorem c10_esc_skips_deletion (oracle : Nat → SolveResult) (cfg : SolveCfg)
    (s : SolveSt) :
    (solveStep oracle cfg s MEvent.esc).1.tracks = s.tracks ∧
    (solveStep oracle cfg s MEvent.esc).2.1 = SOutcome.cancelled ∧
    EAction.deleteSelected ∉ (solveStep oracle cfg s MEvent.esc).2.2 := by
  refine ⟨rfl, rfl, ?_⟩
  simp [solveStep]

end AutoTrack
